import Mathlib

/-!
Shallow embedding of the s2n ECDHE core (crypto/s2n_ecc.c) together with the
TLS 1.3 client key share extension receive path
(tls/extensions/s2n_client_key_share.c).

Bytes are modelled as natural numbers, byte cursors (s2n_stuffer) as lists of
bytes consumed from the front, and the opaque libcrypto capabilities (point
decoding, point encoding, raw ECDH computation) as explicit function
parameters.  Fallible operations return an explicit error value from the s2n
error taxonomy; C functions that mutate a structure in place are modelled as
returning the updated structure next to the result code.
-/

set_option maxRecDepth 40000

/-- The s2n error codes reachable from the embedded functions. -/
inductive S2nError where
  | BAD_MESSAGE
  | STUFFER_OUT_OF_DATA
  | NULL
  | ECDHE_UNSUPPORTED_CURVE
  | ECDHE_SHARED_SECRET
  | ECDHE_SERIALIZING
  | ECDHE_GEN_KEY
deriving DecidableEq

/-- s2n_stuffer_read_uint8: read one byte, advancing the cursor. -/
def read_uint8 : List Nat → Option (Nat × List Nat)
  | [] => none
  | b :: rest => some (b, rest)

/-- s2n_stuffer_read_uint16: read a big-endian 16-bit integer. -/
def read_uint16 : List Nat → Option (Nat × List Nat)
  | b1 :: b2 :: rest => some (b1 * 256 + b2, rest)
  | _ => none

/-- s2n_stuffer_skip_read: advance the cursor over n bytes. -/
def skip_read (n : Nat) (s : List Nat) : Option (List Nat) :=
  if n ≤ s.length then some (s.drop n) else none

/-- s2n_stuffer_raw_read: borrow n bytes and advance the cursor. -/
def raw_read (n : Nat) (s : List Nat) : Option (List Nat × List Nat) :=
  if n ≤ s.length then some (s.take n, s.drop n) else none

/-- Big-endian two-byte encoding, as s2n_stuffer_write_uint16 produces. -/
def u16_bytes (n : Nat) : List Nat := [n / 256 % 256, n % 256]

/-- struct s2n_ecc_named_curve: one entry of the static curve registry. -/
structure s2n_ecc_named_curve where
  iana_id : Nat
  libcrypto_nid : Nat
  name : String
  share_size : Nat
deriving DecidableEq

/-- The static registry s2n_ecc_supported_curves, in source order:
secp256r1 (0x0017, NID 415, share size 65) then secp384r1 (0x0018, NID 715,
share size 97). -/
def s2n_ecc_supported_curves : List s2n_ecc_named_curve :=
  [{ iana_id := 23, libcrypto_nid := 415, name := "secp256r1", share_size := 65 },
   { iana_id := 24, libcrypto_nid := 715, name := "secp384r1", share_size := 97 }]

/-- Opaque EC_KEY handle: the libcrypto group identifier it was created for
and, once installed, the octet string of the public point. -/
structure EC_KEY where
  nid : Nat
  pub : Option (List Nat)
deriving DecidableEq

/-- struct s2n_ecc_params: a per-connection slot, holding an optional
negotiated curve and an optional owned key handle. -/
structure s2n_ecc_params where
  negotiated_curve : Option s2n_ecc_named_curve
  ec_key : Option EC_KEY
deriving DecidableEq

instance : Inhabited s2n_ecc_params := ⟨⟨none, none⟩⟩

/-- s2n_ecc_params_free: release the key handle (if any) and null it out;
always returns 0 and never touches negotiated_curve. -/
def s2n_ecc_params_free (p : s2n_ecc_params) : Int × s2n_ecc_params :=
  if p.ec_key.isSome then (0, { p with ec_key := none }) else (0, p)

/-- s2n_ecc_parse_ecc_params_point: create a key handle for the negotiated
curve, then decode the peer point octets through the opaque libcrypto
capability dec (EC_POINT_oct2point plus EC_KEY_set_public_key, whose
rejections the source maps to S2N_ERR_BAD_MESSAGE).  On decode failure the
freshly created key handle has already been stored in the structure, exactly
as in the source. -/
def s2n_ecc_parse_ecc_params_point (dec : Nat → List Nat → Bool)
    (ecc_params : s2n_ecc_params) (point_blob : List Nat) :
    Option S2nError × s2n_ecc_params :=
  match ecc_params.negotiated_curve with
  | none => (some S2nError.NULL, ecc_params)
  | some curve =>
    let withKey : s2n_ecc_params :=
      { ecc_params with ec_key := some { nid := curve.libcrypto_nid, pub := none } }
    if dec curve.libcrypto_nid point_blob then
      (none, { withKey with
               ec_key := some { nid := curve.libcrypto_nid, pub := some point_blob } })
    else (some S2nError.BAD_MESSAGE, withKey)

/-- Inner candidate scan of s2n_ecc_find_supported_curve: read the candidate
ids one by one and stop at the first one equal to the target. -/
def id_list_has (target : Nat) : List Nat → Bool
  | [] => false
  | x :: xs => if target = x then true else id_list_has target xs

/-- The sequence of 16-bit candidate ids read from a byte blob: the source
reads size / 2 big-endian pairs, so a trailing odd byte is never read. -/
def ids_of_bytes : List Nat → List Nat
  | b1 :: b2 :: rest => (b1 * 256 + b2) :: ids_of_bytes rest
  | _ => []

/-- Outer registry scan of s2n_ecc_find_supported_curve: registry order wins
over candidate order. -/
def find_supported_aux : List s2n_ecc_named_curve → List Nat → Option s2n_ecc_named_curve
  | [], _ => none
  | c :: cs, ids => if id_list_has c.iana_id ids then some c else find_supported_aux cs ids

/-- s2n_ecc_find_supported_curve: return the first registry curve whose wire
id occurs among the candidate id pairs, or S2N_ERR_ECDHE_UNSUPPORTED_CURVE. -/
def s2n_ecc_find_supported_curve (iana_ids : List Nat) :
    Except S2nError s2n_ecc_named_curve :=
  match find_supported_aux s2n_ecc_supported_curves (ids_of_bytes iana_ids) with
  | some c => Except.ok c
  | none => Except.error S2nError.ECDHE_UNSUPPORTED_CURVE

/-- The registry scan at the top of each receive-loop iteration: find the
registry index and entry whose iana_id equals named_group. -/
def find_curve_aux (named_group : Nat) :
    List s2n_ecc_named_curve → Nat → Option (Nat × s2n_ecc_named_curve)
  | [], _ => none
  | c :: cs, i =>
    if named_group = c.iana_id then some (i, c) else find_curve_aux named_group cs (i + 1)

/-- The body of one receive-loop iteration of
s2n_extensions_client_key_share_recv, after named_group and share_size have
been read and the available-bytes check has passed.  Returns the result code,
the updated per-curve slots and the advanced cursor.  The unmatched-group,
already-populated-slot and wrong-size branches skip share_size bytes; the
accept branch reads the point and, on a decode failure, reverts the slot
(negotiated_curve nulled, key handle freed). -/
def recv_iter (dec : Nat → List Nat → Bool) (slots : List s2n_ecc_params)
    (named_group share_size : Nat) (ext2 : List Nat) :
    Option S2nError × List s2n_ecc_params × List Nat :=
  match find_curve_aux named_group s2n_ecc_supported_curves 0 with
  | none =>
    match skip_read share_size ext2 with
    | none => (some S2nError.STUFFER_OUT_OF_DATA, slots, ext2)
    | some ext3 => (none, slots, ext3)
  | some (i, supported_curve) =>
    if ((slots.getD i default).negotiated_curve).isSome then
      match skip_read share_size ext2 with
      | none => (some S2nError.STUFFER_OUT_OF_DATA, slots, ext2)
      | some ext3 => (none, slots, ext3)
    else if supported_curve.share_size ≠ share_size then
      match skip_read share_size ext2 with
      | none => (some S2nError.STUFFER_OUT_OF_DATA, slots, ext2)
      | some ext3 => (none, slots, ext3)
    else
      match raw_read share_size ext2 with
      | none => (some S2nError.NULL, slots, ext2)
      | some (point_blob, ext3) =>
        let slot1 : s2n_ecc_params :=
          { slots.getD i default with negotiated_curve := some supported_curve }
        let pr := s2n_ecc_parse_ecc_params_point dec slot1 point_blob
        if pr.1.isSome then
          (none,
           slots.set i (s2n_ecc_params_free { pr.2 with negotiated_curve := none }).2,
           ext3)
        else (none, slots.set i pr.2, ext3)

/-- The while loop of s2n_extensions_client_key_share_recv, with an explicit
fuel argument standing for the loop counter: bytes_processed grows by at
least 4 per iteration, so any fuel with key_shares_size less or equal
bytes_processed + fuel is enough, and recv_loop_fuel_le below shows the
result is then independent of the fuel.  Returns the result code, the
updated slots, the remaining extension bytes and the final bytes_processed. -/
def recv_loop (dec : Nat → List Nat → Bool) (ksz : Nat) :
    Nat → List s2n_ecc_params → List Nat → Nat →
      Option S2nError × List s2n_ecc_params × List Nat × Nat
  | 0, slots, ext, bp => (none, slots, ext, bp)
  | fuel + 1, slots, ext, bp =>
    if bp < ksz then
      match read_uint16 ext with
      | none => (some S2nError.STUFFER_OUT_OF_DATA, slots, ext, bp)
      | some (named_group, ext1) =>
        match read_uint16 ext1 with
        | none => (some S2nError.STUFFER_OUT_OF_DATA, slots, ext1, bp)
        | some (share_size, ext2) =>
          if ext2.length < share_size then (some S2nError.BAD_MESSAGE, slots, ext2, bp)
          else
            match recv_iter dec slots named_group share_size ext2 with
            | (some e, slots2, ext3) => (some e, slots2, ext3, bp + share_size + 4)
            | (none, slots2, ext3) =>
              recv_loop dec ksz fuel slots2 ext3 (bp + share_size + 4)
    else (none, slots, ext, bp)

/-- s2n_extensions_client_key_share_recv: read client_shares_length, fail
with S2N_ERR_BAD_MESSAGE when fewer bytes remain than declared, then run the
lenient share loop.  ksz fuel is always enough because every iteration adds
share_size + 4 to bytes_processed. -/
def s2n_extensions_client_key_share_recv (dec : Nat → List Nat → Bool)
    (slots : List s2n_ecc_params) (extension : List Nat) :
    Option S2nError × List s2n_ecc_params × List Nat × Nat :=
  match read_uint16 extension with
  | none => (some S2nError.STUFFER_OUT_OF_DATA, slots, extension, 0)
  | some (key_shares_size, ext) =>
    if ext.length < key_shares_size then (some S2nError.BAD_MESSAGE, slots, ext, 0)
    else recv_loop dec key_shares_size key_shares_size slots ext 0

/-- Outcome of the structural framing of a share list. -/
inductive FrameResult where
  | ok
  | badMessage
  | outOfData
deriving DecidableEq

/-- Modelled from the spec: the purely structural framing of the share list,
written from the words of the specification alone: one
(named_group, key_exchange_length, key_exchange) triple per iteration, a
declared key_exchange_length exceeding the remaining bytes is fatal, and
nothing else about the content matters. -/
def frame_check (ksz : Nat) : Nat → List Nat → Nat → FrameResult
  | 0, _, _ => FrameResult.ok
  | fuel + 1, ext, bp =>
    if bp < ksz then
      match read_uint16 ext with
      | none => FrameResult.outOfData
      | some (_, ext1) =>
        match read_uint16 ext1 with
        | none => FrameResult.outOfData
        | some (share_size, ext2) =>
          if ext2.length < share_size then FrameResult.badMessage
          else frame_check ksz fuel (ext2.drop share_size) (bp + share_size + 4)
    else FrameResult.ok

/-- Modelled from the spec: an extension body is structurally short when the
declared client_shares_length exceeds the remaining bytes, or when a share
inside the declared range declares a key_exchange_length exceeding the bytes
left. -/
def structurally_short (extension : List Nat) : Prop :=
  match read_uint16 extension with
  | none => False
  | some (ksz, ext) =>
    ext.length < ksz ∨ frame_check ksz ksz ext 0 = FrameResult.badMessage

/-- The three skip conditions of one receive-loop iteration: the named group
matches no registry curve, or the matching slot is already populated, or the
declared share size differs from the registry share size. -/
def skip_condition (slots : List s2n_ecc_params) (named_group share_size : Nat) : Bool :=
  match find_curve_aux named_group s2n_ecc_supported_curves 0 with
  | none => true
  | some (i, supported_curve) =>
    ((slots.getD i default).negotiated_curve).isSome
      || decide (supported_curve.share_size ≠ share_size)

/-- s2n_ecc_calculate_point_length: the uncompressed octet length of the
public point as reported by EC_POINT_point2oct (here the deterministic
encoding capability enc applied to the key); zero or above 255 fails with
S2N_ERR_ECDHE_SERIALIZING. -/
def s2n_ecc_calculate_point_length (enc : List Nat) : Except S2nError Nat :=
  if enc.length = 0 then Except.error S2nError.ECDHE_SERIALIZING
  else if enc.length > 255 then Except.error S2nError.ECDHE_SERIALIZING
  else Except.ok enc.length

/-- s2n_ecc_write_point: reserve the computed length, then write the point
octets snugly; the snug check compares the second point2oct result against
the reserved size (always equal for a deterministic capability, kept for
fidelity). -/
def s2n_ecc_write_point (enc : List Nat) (out : List Nat) : Except S2nError (List Nat) :=
  match s2n_ecc_calculate_point_length enc with
  | Except.error e => Except.error e
  | Except.ok point_len =>
    if enc.length ≠ point_len then Except.error S2nError.ECDHE_SERIALIZING
    else Except.ok (out ++ enc)

/-- s2n_ecc_write_ecc_params: write curve_type 3, the wire id, one length
byte taken from the stored share_size constant, then the encoded point (via
the encoding capability enc applied to the stored key).  Returns the result
code share_size + 4, the grown output, and the reported written span as an
offset into the output plus a size. -/
def s2n_ecc_write_ecc_params (enc : EC_KEY → List Nat) (params : s2n_ecc_params)
    (out : List Nat) : Except S2nError (Nat × List Nat × Nat × Nat) :=
  match params.negotiated_curve, params.ec_key with
  | some curve, some key =>
    let key_share_size := curve.share_size
    let written_offset := out.length
    let out1 := out ++ [3]
    let out2 := out1 ++ u16_bytes curve.iana_id
    let out3 := out2 ++ [key_share_size % 256]
    match s2n_ecc_write_point (enc key) out3 with
    | Except.error e => Except.error e
    | Except.ok out4 =>
      Except.ok (key_share_size + 4, out4, written_offset, key_share_size + 4)
  | _, _ => Except.error S2nError.NULL

/-- struct s2n_ecdhe_raw_server_params: the raw spans captured before
verification. -/
structure s2n_ecdhe_raw_server_params where
  curve_blob : List Nat
  point_blob : List Nat
deriving DecidableEq

/-- Result of s2n_ecc_read_ecc_params: the span to be covered by the later
signature check, the raw curve and point spans, and the remaining input. -/
structure ecc_read_result where
  data_to_verify : List Nat
  raw : s2n_ecdhe_raw_server_params
  rest : List Nat
deriving DecidableEq

/-- s2n_ecc_read_ecc_params_point: borrow point_size bytes as the point
span. -/
def s2n_ecc_read_ecc_params_point (s : List Nat) (point_size : Nat) :
    Except S2nError (List Nat × List Nat) :=
  match raw_read point_size s with
  | none => Except.error S2nError.NULL
  | some (point_blob, rest) => Except.ok (point_blob, rest)

/-- s2n_ecc_read_ecc_params: read curve_type (reject anything but the named
curve tag 3 with S2N_ERR_BAD_MESSAGE), borrow the 2-byte curve span, read the
point length byte, borrow the point span, and record the whole unverified
span of 1 + 2 + 1 + point_length bytes. -/
def s2n_ecc_read_ecc_params (input : List Nat) : Except S2nError ecc_read_result :=
  match read_uint8 input with
  | none => Except.error S2nError.STUFFER_OUT_OF_DATA
  | some (curve_type, s1) =>
    if curve_type ≠ 3 then Except.error S2nError.BAD_MESSAGE
    else
      match raw_read 2 s1 with
      | none => Except.error S2nError.NULL
      | some (curve_blob, s2) =>
        match read_uint8 s2 with
        | none => Except.error S2nError.STUFFER_OUT_OF_DATA
        | some (point_length, s3) =>
          match s2n_ecc_read_ecc_params_point s3 point_length with
          | Except.error e => Except.error e
          | Except.ok (point_blob, s4) =>
            Except.ok
              { data_to_verify := input.take (4 + point_length),
                raw := { curve_blob := curve_blob, point_blob := point_blob },
                rest := s4 }

/-- s2n_ecc_compute_shared_secret: reject a non-positive field degree, then
allocate a buffer of (field_degree + 7) / 8 bytes (the source computes this
in C int arithmetic after the positivity guard, so Nat division on
field_degree.toNat agrees) and run the raw ECDH capability on it.  The
capability reports a byte count and the bytes it wrote; anything but exactly
the allocated count frees the buffer and fails with
S2N_ERR_ECDHE_SHARED_SECRET.  The returned buffer keeps the allocated length:
written bytes first, untouched allocation bytes after. -/
def s2n_ecc_compute_shared_secret (field_degree : Int)
    (ecdh : Nat → Int × List Nat) : Option S2nError × Option (List Nat) :=
  if field_degree ≤ 0 then (some S2nError.ECDHE_SHARED_SECRET, none)
  else
    let shared_secret_size := (field_degree.toNat + 7) / 8
    let r := ecdh shared_secret_size
    let buf := r.2.take shared_secret_size
        ++ List.replicate (shared_secret_size - r.2.length) 0
    if r.1 ≠ (shared_secret_size : Int) then (some S2nError.ECDHE_SHARED_SECRET, none)
    else (none, some buf)

/-! Helper lemmas about the byte-cursor primitives and the registry scans. -/

theorem skip_read_of_le (n : Nat) (s : List Nat) (h : n ≤ s.length) :
    skip_read n s = some (s.drop n) := by
  simp [skip_read, h]

theorem raw_read_of_le (n : Nat) (s : List Nat) (h : n ≤ s.length) :
    raw_read n s = some (s.take n, s.drop n) := by
  simp [raw_read, h]

theorem read_ecc_params_point_ok (s : List Nat) (n : Nat) (pb rest : List Nat)
    (h : s2n_ecc_read_ecc_params_point s n = Except.ok (pb, rest)) :
    n ≤ s.length ∧ pb = s.take n ∧ rest = s.drop n := by
  unfold s2n_ecc_read_ecc_params_point at h
  rw [raw_read] at h
  by_cases hle : n ≤ s.length
  · simp [hle] at h
    exact ⟨hle, h.1.symm, h.2.symm⟩
  · simp [hle] at h

theorem read_u16_bytes (n : Nat) (r : List Nat) (h : n < 65536) :
    read_uint16 (u16_bytes n ++ r) = some (n, r) := by
  simp only [u16_bytes, List.cons_append, List.nil_append, read_uint16]
  have : n / 256 % 256 * 256 + n % 256 = n := by omega
  rw [this]

theorem read_uint16_length (s r : List Nat) (v : Nat)
    (h : read_uint16 s = some (v, r)) : r.length + 2 = s.length := by
  match s with
  | [] => simp [read_uint16] at h
  | [x] => simp [read_uint16] at h
  | x :: y :: rest =>
    simp [read_uint16] at h
    simp [h.2]

theorem id_list_has_iff (t : Nat) : ∀ l : List Nat, id_list_has t l = true ↔ t ∈ l
  | [] => by simp [id_list_has]
  | x :: xs => by
    by_cases h : t = x
    · simp [id_list_has, h]
    · simp [id_list_has, h, id_list_has_iff t xs]

theorem ids_of_bytes_append_even (b : Nat) :
    ∀ bytes : List Nat, bytes.length % 2 = 0 →
      ids_of_bytes (bytes ++ [b]) = ids_of_bytes bytes
  | [], _ => by rfl
  | [x], h => by simp [List.length] at h
  | x :: y :: rest, h => by
    have ih := ids_of_bytes_append_even b rest (by simp [List.length_cons] at h; omega)
    simp only [List.cons_append, ids_of_bytes]
    exact congrArg (List.cons (x * 256 + y)) ih

/-- C5: for every candidate byte list whose 16-bit id pairs contain the wire
id of the registry curve at position i while no earlier registry curve
matches, s2n_ecc_find_supported_curve returns that registry entry — the
earliest match in registry order, regardless of the candidate order. -/
theorem find_supported_curve_registry_order (bytes : List Nat) (i : Nat)
    (hi : i < s2n_ecc_supported_curves.length)
    (hmem : (s2n_ecc_supported_curves.get ⟨i, hi⟩).iana_id ∈ ids_of_bytes bytes)
    (hearlier : ∀ j (hj : j < i),
      ¬ (s2n_ecc_supported_curves.get ⟨j, Nat.lt_trans hj hi⟩).iana_id
          ∈ ids_of_bytes bytes) :
    s2n_ecc_find_supported_curve bytes
      = Except.ok (s2n_ecc_supported_curves.get ⟨i, hi⟩) := by
  have h2 : i < 2 := hi
  interval_cases i
  · have hhas : id_list_has 23 (ids_of_bytes bytes) = true := by
      rw [id_list_has_iff]
      exact hmem
    simp [s2n_ecc_find_supported_curve, find_supported_aux, s2n_ecc_supported_curves,
      hhas, List.get]
  · have h23 : ¬ ((23 : Nat) ∈ ids_of_bytes bytes) := hearlier 0 (by omega)
    have hh23 : id_list_has 23 (ids_of_bytes bytes) = false := by
      rw [← Bool.not_eq_true, id_list_has_iff]
      exact h23
    have hhas : id_list_has 24 (ids_of_bytes bytes) = true := by
      rw [id_list_has_iff]
      exact hmem
    simp [s2n_ecc_find_supported_curve, find_supported_aux, s2n_ecc_supported_curves,
      hh23, hhas, List.get]

theorem find_supported_curve_registry_order_witness :
    ((23 : Nat) ∈ ids_of_bytes [0, 24, 0, 23]) ∧
    s2n_ecc_find_supported_curve [0, 24, 0, 23]
      = Except.ok { iana_id := 23, libcrypto_nid := 415, name := "secp256r1",
                    share_size := 65 } :=
  ⟨by decide,
   find_supported_curve_registry_order [0, 24, 0, 23] 0 (by decide) (by decide)
     (fun j hj => absurd hj (Nat.not_lt_zero j))⟩

/-- C6 counterexample: the candidate byte list [0, 23, 99] has odd byte
length, yet s2n_ecc_find_supported_curve succeeds on it (the trailing byte is
simply never read), refuting the claim that every odd-length candidate list
fails with UnsupportedCurve. -/
theorem find_supported_curve_odd_length_counterexample :
    s2n_ecc_find_supported_curve [0, 23, 99]
      = Except.ok { iana_id := 23, libcrypto_nid := 415, name := "secp256r1",
                    share_size := 65 }
    ∧ ([0, 23, 99] : List Nat).length % 2 = 1 := by
  exact ⟨rfl, rfl⟩

/-- C6 (amended): s2n_ecc_find_supported_curve fails with UnsupportedCurve
exactly when no registry wire id occurs among the complete 16-bit pairs of
the candidate list; a trailing odd byte is ignored, so appending one byte to
an even-length list never changes the result. -/
theorem find_supported_curve_failure :
    (∀ bytes : List Nat,
      (∀ c ∈ s2n_ecc_supported_curves, ¬ c.iana_id ∈ ids_of_bytes bytes) →
      s2n_ecc_find_supported_curve bytes
        = Except.error S2nError.ECDHE_UNSUPPORTED_CURVE)
  ∧ (∀ (bytes : List Nat) (b : Nat), bytes.length % 2 = 0 →
      s2n_ecc_find_supported_curve (bytes ++ [b])
        = s2n_ecc_find_supported_curve bytes) := by
  constructor
  · intro bytes h
    have h23 : ¬ ((23 : Nat) ∈ ids_of_bytes bytes) :=
      h { iana_id := 23, libcrypto_nid := 415, name := "secp256r1", share_size := 65 }
        (by simp [s2n_ecc_supported_curves])
    have h24 : ¬ ((24 : Nat) ∈ ids_of_bytes bytes) :=
      h { iana_id := 24, libcrypto_nid := 715, name := "secp384r1", share_size := 97 }
        (by simp [s2n_ecc_supported_curves])
    have hh23 : id_list_has 23 (ids_of_bytes bytes) = false := by
      rw [← Bool.not_eq_true, id_list_has_iff]
      exact h23
    have hh24 : id_list_has 24 (ids_of_bytes bytes) = false := by
      rw [← Bool.not_eq_true, id_list_has_iff]
      exact h24
    simp [s2n_ecc_find_supported_curve, find_supported_aux, s2n_ecc_supported_curves,
      hh23, hh24]
  · intro bytes b h
    unfold s2n_ecc_find_supported_curve
    rw [ids_of_bytes_append_even b bytes h]

theorem find_supported_curve_failure_witness :
    (∀ c ∈ s2n_ecc_supported_curves, ¬ c.iana_id ∈ ids_of_bytes [0, 99]) ∧
    s2n_ecc_find_supported_curve [0, 99]
      = Except.error S2nError.ECDHE_UNSUPPORTED_CURVE ∧
    ([0, 23] : List Nat).length % 2 = 0 ∧
    s2n_ecc_find_supported_curve ([0, 23] ++ [5]) = s2n_ecc_find_supported_curve [0, 23] :=
  ⟨by decide, find_supported_curve_failure.1 [0, 99] (by decide),
   by decide, find_supported_curve_failure.2 [0, 23] 5 (by decide)⟩

/-- C7 counterexample: with an encoding capability reporting a 66-byte point
for a secp256r1 key, s2n_ecc_write_ecc_params succeeds anyway: the
point_length byte is the stored constant 65 while 66 point octets follow, the
return value and the reported span size are 69 although 70 bytes were
written.  No assertion compares the stored encoded_point_size against the
queried encoded length, refuting the claim. -/
theorem write_ecc_params_length_mismatch_counterexample :
    s2n_ecc_write_ecc_params (fun _ => List.replicate 66 7)
        ⟨some { iana_id := 23, libcrypto_nid := 415, name := "secp256r1",
                share_size := 65 },
         some { nid := 415, pub := some (List.replicate 66 7) }⟩ []
      = Except.ok (69, [3, 0, 23, 65] ++ List.replicate 66 7, 0, 69)
    ∧ ([3, 0, 23, 65] ++ List.replicate 66 7).length = 70
    ∧ (69 : Nat) ≠ 70
    ∧ ([3, 0, 23, 65] ++ List.replicate 66 7).getD 3 0 = 65
    ∧ ((fun (_ : EC_KEY) => List.replicate 66 7)
        { nid := 415, pub := some (List.replicate 66 7) }).length = 66
    ∧ (66 : Nat) ≠ 65 :=
  ⟨rfl, by decide, by decide, by decide, by decide, by decide⟩

/-- C7 (amended): for a slot with a negotiated curve and a key,
s2n_ecc_write_ecc_params writes curve_type 3, the wire id, a point_length
byte taken from the stored share_size constant, then the point octets
reported by the encoding capability, and returns share_size + 4 with a span
of that size starting where writing began; the queried point length is never
checked against the stored constant, and the span covers exactly the written
bytes precisely when the two agree. -/
theorem write_ecc_params_output
    (enc : EC_KEY → List Nat) (params : s2n_ecc_params) (out : List Nat)
    (curve : s2n_ecc_named_curve) (key : EC_KEY)
    (hcurve : params.negotiated_curve = some curve)
    (hkey : params.ec_key = some key)
    (hpos : (enc key).length ≠ 0)
    (hmax : ¬ (enc key).length > 255) :
    s2n_ecc_write_ecc_params enc params out
      = Except.ok (curve.share_size + 4,
          out ++ [3] ++ u16_bytes curve.iana_id ++ [curve.share_size % 256] ++ enc key,
          out.length, curve.share_size + 4)
    ∧ ((enc key).length = curve.share_size →
        ([3] ++ u16_bytes curve.iana_id ++ [curve.share_size % 256] ++ enc key).length
          = curve.share_size + 4) := by
  constructor
  · unfold s2n_ecc_write_ecc_params
    rw [hcurve, hkey]
    unfold s2n_ecc_write_point s2n_ecc_calculate_point_length
    simp [hpos, hmax, List.append_assoc]
  · intro hlen
    simp [u16_bytes, List.length_append, hlen]

theorem write_ecc_params_output_witness :
    ((fun (_ : EC_KEY) => List.replicate 65 7)
        { nid := 415, pub := some (List.replicate 65 7) }).length ≠ 0
    ∧ s2n_ecc_write_ecc_params (fun _ => List.replicate 65 7)
        ⟨some { iana_id := 23, libcrypto_nid := 415, name := "secp256r1",
                share_size := 65 },
         some { nid := 415, pub := some (List.replicate 65 7) }⟩ []
      = Except.ok (69, [] ++ [3] ++ u16_bytes 23 ++ [65 % 256] ++ List.replicate 65 7,
          0, 69) :=
  ⟨by decide,
   (write_ecc_params_output (fun _ => List.replicate 65 7)
      ⟨some { iana_id := 23, libcrypto_nid := 415, name := "secp256r1",
              share_size := 65 },
       some { nid := 415, pub := some (List.replicate 65 7) }⟩ []
      { iana_id := 23, libcrypto_nid := 415, name := "secp256r1", share_size := 65 }
      { nid := 415, pub := some (List.replicate 65 7) }
      rfl rfl (by decide) (by decide)).1⟩

/-- C8: s2n_ecc_read_ecc_params fails with S2N_ERR_BAD_MESSAGE whenever the
first byte is not the named-curve tag 3, and on success the unverified span
has length exactly 1 + 2 + 1 + point_length, where point_length is the value
of the one-byte length field (the length of the captured point span). -/
theorem read_ecc_params_tag_and_span :
    (∀ (b : Nat) (rest : List Nat), b ≠ 3 →
      s2n_ecc_read_ecc_params (b :: rest) = Except.error S2nError.BAD_MESSAGE)
  ∧ (∀ (input : List Nat) (r : ecc_read_result),
      s2n_ecc_read_ecc_params input = Except.ok r →
      r.data_to_verify.length = 1 + 2 + 1 + r.raw.point_blob.length) := by
  constructor
  · intro b rest hb
    simp [s2n_ecc_read_ecc_params, read_uint8, hb]
  · intro input r h
    unfold s2n_ecc_read_ecc_params at h
    split at h
    · exact Except.noConfusion h
    next curve_type s1 h1 =>
      split at h
      · exact Except.noConfusion h
      next hct =>
        split at h
        · exact Except.noConfusion h
        next curve_blob s2 h2 =>
          split at h
          · exact Except.noConfusion h
          next point_length s3 h3 =>
            split at h
            · exact Except.noConfusion h
            next point_blob s4 h4 =>
              simp only [Except.ok.injEq] at h
              subst h
              obtain ⟨hle4, hpb, _⟩ := read_ecc_params_point_ok s3 point_length
                point_blob s4 h4
              have hi1 : input = curve_type :: s1 := by
                match input, h1 with
                | x :: rest, h1 => simp [read_uint8] at h1; simp [h1.1, h1.2]
              have hs1 : 2 ≤ s1.length ∧ s2 = s1.drop 2 := by
                rw [raw_read] at h2
                by_cases hle : 2 ≤ s1.length
                · simp [hle] at h2
                  exact ⟨hle, h2.2.symm⟩
                · simp [hle] at h2
              have hs2 : s2 = point_length :: s3 := by
                match s2, h3 with
                | x :: rest, h3 => simp [read_uint8] at h3; simp [h3.1, h3.2]
              have hlen : 4 + point_length ≤ input.length := by
                have e1 : input.length = s1.length + 1 := by rw [hi1]; simp
                have e2 : s2.length = s1.length - 2 := by rw [hs1.2]; simp
                have e3 : s2.length = s3.length + 1 := by rw [hs2]; simp
                omega
              have hpbl : point_blob.length = point_length := by
                rw [hpb, List.length_take]
                omega
              simp [List.length_take, hpbl]
              omega

theorem read_ecc_params_tag_and_span_witness :
    s2n_ecc_read_ecc_params [0] = Except.error S2nError.BAD_MESSAGE
    ∧ s2n_ecc_read_ecc_params [3, 0, 23, 2, 8, 9]
        = Except.ok { data_to_verify := [3, 0, 23, 2, 8, 9],
                      raw := { curve_blob := [0, 23], point_blob := [8, 9] },
                      rest := [] }
    ∧ ({ data_to_verify := [3, 0, 23, 2, 8, 9],
         raw := { curve_blob := [0, 23], point_blob := [8, 9] },
         rest := [] } : ecc_read_result).data_to_verify.length
        = 1 + 2 + 1 + ({ data_to_verify := [3, 0, 23, 2, 8, 9],
                         raw := { curve_blob := [0, 23], point_blob := [8, 9] },
                         rest := [] } : ecc_read_result).raw.point_blob.length :=
  ⟨read_ecc_params_tag_and_span.1 0 [] (by decide), rfl,
   read_ecc_params_tag_and_span.2 [3, 0, 23, 2, 8, 9] _ rfl⟩

/-- C9: s2n_ecc_compute_shared_secret fails with S2N_ERR_ECDHE_SHARED_SECRET
on a non-positive field degree; otherwise it allocates exactly
(field_degree + 7) / 8 bytes — the byte ceiling of the field degree — and
when the raw ECDH capability reports anything but exactly that count, the
buffer is discarded and the same failure is returned; on success the secret
has exactly the allocated length, never a partial fill. -/
theorem compute_shared_secret_length (field_degree : Int)
    (ecdh : Nat → Int × List Nat) :
    (field_degree ≤ 0 →
      s2n_ecc_compute_shared_secret field_degree ecdh
        = (some S2nError.ECDHE_SHARED_SECRET, none))
  ∧ (0 < field_degree →
      ((ecdh ((field_degree.toNat + 7) / 8)).1
          ≠ (((field_degree.toNat + 7) / 8 : Nat) : Int) →
        s2n_ecc_compute_shared_secret field_degree ecdh
          = (some S2nError.ECDHE_SHARED_SECRET, none))
      ∧ ((ecdh ((field_degree.toNat + 7) / 8)).1
            = (((field_degree.toNat + 7) / 8 : Nat) : Int) →
          ∃ secret, s2n_ecc_compute_shared_secret field_degree ecdh = (none, some secret)
            ∧ secret.length = (field_degree.toNat + 7) / 8)
      ∧ (field_degree.toNat ≤ 8 * ((field_degree.toNat + 7) / 8)
          ∧ 8 * ((field_degree.toNat + 7) / 8) < field_degree.toNat + 8)) := by
  constructor
  · intro h
    unfold s2n_ecc_compute_shared_secret
    rw [if_pos h]
  · intro h
    have hneg : ¬ field_degree ≤ 0 := by omega
    refine ⟨?_, ?_, by omega⟩
    · intro hrc
      unfold s2n_ecc_compute_shared_secret
      rw [if_neg hneg]
      exact if_pos hrc
    · intro hrc
      refine ⟨(ecdh ((field_degree.toNat + 7) / 8)).2.take ((field_degree.toNat + 7) / 8)
          ++ List.replicate
              ((field_degree.toNat + 7) / 8
                - (ecdh ((field_degree.toNat + 7) / 8)).2.length) 0, ?_, ?_⟩
      · unfold s2n_ecc_compute_shared_secret
        rw [if_neg hneg]
        exact if_neg (not_not_intro hrc)
      · simp [List.length_take, List.length_replicate]
        omega

theorem compute_shared_secret_length_witness :
    (0 : Int) < 256
    ∧ ((fun (_ : Nat) => ((32 : Int), List.replicate 40 1)) (((256 : Int).toNat + 7) / 8)).1
        = ((((256 : Int).toNat + 7) / 8 : Nat) : Int)
    ∧ ∃ secret,
        s2n_ecc_compute_shared_secret 256 (fun _ => ((32 : Int), List.replicate 40 1))
          = (none, some secret)
        ∧ secret.length = (((256 : Int).toNat + 7) / 8) :=
  ⟨by decide, by decide,
   ((compute_shared_secret_length 256 (fun _ => ((32 : Int), List.replicate 40 1))).2
      (by decide)).2.1 (by decide)⟩

/-- C10: s2n_ecc_params_free always returns 0, nulls the key handle, leaves
negotiated_curve untouched, and a second call on the result is a no-op that
also returns 0. -/
theorem ecc_params_free_idempotent (p : s2n_ecc_params) :
    (s2n_ecc_params_free p).1 = 0
    ∧ (s2n_ecc_params_free p).2.ec_key = none
    ∧ (s2n_ecc_params_free p).2.negotiated_curve = p.negotiated_curve
    ∧ s2n_ecc_params_free (s2n_ecc_params_free p).2 = (0, (s2n_ecc_params_free p).2) := by
  rcases hk : p.ec_key with _ | k <;>
    simp [s2n_ecc_params_free, hk]


/-! Lemmas about one receive-loop iteration and the fuel-indexed loop. -/

theorem recv_iter_spec (dec : Nat → List Nat → Bool) (slots : List s2n_ecc_params)
    (g sz : Nat) (ext2 : List Nat) (h : sz ≤ ext2.length) :
    (recv_iter dec slots g sz ext2).1 = none ∧
      (recv_iter dec slots g sz ext2).2.2 = ext2.drop sz := by
  unfold recv_iter
  rcases hf : find_curve_aux g s2n_ecc_supported_curves 0 with _ | ⟨i, c⟩
  · rw [skip_read_of_le sz ext2 h]
    exact ⟨rfl, rfl⟩
  · dsimp only
    rw [skip_read_of_le sz ext2 h, raw_read_of_le sz ext2 h]
    by_cases h1 : ((slots.getD i default).negotiated_curve).isSome = true
    · rw [if_pos h1]
      exact ⟨rfl, rfl⟩
    · rw [if_neg h1]
      by_cases h2 : c.share_size ≠ sz
      · rw [if_pos h2]
        exact ⟨rfl, rfl⟩
      · rw [if_neg h2]
        dsimp only
        by_cases h3 : (s2n_ecc_parse_ecc_params_point dec
            { slots.getD i default with negotiated_curve := some c }
            (ext2.take sz)).1.isSome = true
        · rw [if_pos h3]
          exact ⟨rfl, rfl⟩
        · rw [if_neg h3]
          exact ⟨rfl, rfl⟩

theorem recv_loop_fuel_le (dec : Nat → List Nat → Bool) (ksz : Nat) :
    ∀ f g slots ext bp, f ≤ g → ksz ≤ bp + f →
      recv_loop dec ksz f slots ext bp = recv_loop dec ksz g slots ext bp := by
  intro f
  induction f with
  | zero =>
    intro g slots ext bp _ hk
    have hbp : ¬ bp < ksz := by omega
    cases g with
    | zero => rfl
    | succ g => simp [recv_loop, hbp]
  | succ f ih =>
    intro g slots ext bp hle hk
    cases g with
    | zero => omega
    | succ g =>
      simp only [recv_loop]
      by_cases hbp : bp < ksz
      · rw [if_pos hbp, if_pos hbp]
        rcases h1 : read_uint16 ext with _ | ⟨ng, ext1⟩
        · rfl
        · dsimp only
          rcases h2 : read_uint16 ext1 with _ | ⟨sz, ext2⟩
          · rfl
          · dsimp only
            by_cases h3 : ext2.length < sz
            · rw [if_pos h3, if_pos h3]
            · rw [if_neg h3, if_neg h3]
              rcases h4 : recv_iter dec slots ng sz ext2 with ⟨e, slots2, ext3⟩
              cases e with
              | some e => rfl
              | none => exact ih g slots2 ext3 (bp + sz + 4) (by omega) (by omega)
      · rw [if_neg hbp, if_neg hbp]

theorem recv_loop_err (dec : Nat → List Nat → Bool) (ksz : Nat) :
    ∀ fuel slots ext bp,
      (recv_loop dec ksz fuel slots ext bp).1 =
        (match frame_check ksz fuel ext bp with
         | FrameResult.ok => none
         | FrameResult.badMessage => some S2nError.BAD_MESSAGE
         | FrameResult.outOfData => some S2nError.STUFFER_OUT_OF_DATA) := by
  intro fuel
  induction fuel with
  | zero => intro slots ext bp; rfl
  | succ fuel ih =>
    intro slots ext bp
    simp only [recv_loop, frame_check]
    by_cases hbp : bp < ksz
    · rw [if_pos hbp, if_pos hbp]
      rcases h1 : read_uint16 ext with _ | ⟨ng, ext1⟩
      · rfl
      · dsimp only
        rcases h2 : read_uint16 ext1 with _ | ⟨sz, ext2⟩
        · rfl
        · dsimp only
          by_cases h3 : ext2.length < sz
          · rw [if_pos h3, if_pos h3]
          · rw [if_neg h3, if_neg h3]
            have hspec := recv_iter_spec dec slots ng sz ext2 (by omega)
            rcases h4 : recv_iter dec slots ng sz ext2 with ⟨e, slots2, ext3⟩
            rw [h4] at hspec
            obtain ⟨he, hext⟩ := hspec
            dsimp only at he hext
            subst he
            subst hext
            exact ih slots2 (ext2.drop sz) (bp + sz + 4)
    · rw [if_neg hbp, if_neg hbp]

theorem recv_loop_bytes (dec : Nat → List Nat → Bool) (ksz : Nat) :
    ∀ fuel slots ext bp err slots2 ext2 bpf,
      ksz ≤ bp + fuel →
      recv_loop dec ksz fuel slots ext bp = (err, slots2, ext2, bpf) →
      err = none →
      ksz ≤ bpf ∧ bp ≤ bpf ∧ ext.length + bp = ext2.length + bpf := by
  intro fuel
  induction fuel with
  | zero =>
    intro slots ext bp err slots2 ext2 bpf hk hrun _
    simp only [recv_loop, Prod.mk.injEq] at hrun
    obtain ⟨_, _, hext, hbp⟩ := hrun
    subst hext
    subst hbp
    omega
  | succ fuel ih =>
    intro slots ext bp err slots2 ext2 bpf hk hrun herr
    subst herr
    rw [recv_loop] at hrun
    by_cases hbp : bp < ksz
    · rw [if_pos hbp] at hrun
      rcases h1 : read_uint16 ext with _ | ⟨ng, ext1⟩ <;> rw [h1] at hrun
      · simp at hrun
      · dsimp only at hrun
        rcases h2 : read_uint16 ext1 with _ | ⟨sz, ext2x⟩ <;> rw [h2] at hrun
        · simp at hrun
        · dsimp only at hrun
          by_cases h3 : ext2x.length < sz
          · rw [if_pos h3] at hrun
            simp at hrun
          · rw [if_neg h3] at hrun
            have hspec := recv_iter_spec dec slots ng sz ext2x (by omega)
            rcases h4 : recv_iter dec slots ng sz ext2x with ⟨e, slots3, ext3⟩
            rw [h4] at hspec hrun
            obtain ⟨he, hext⟩ := hspec
            dsimp only at he hext
            subst he
            subst hext
            have hstep := ih slots3 (ext2x.drop sz) (bp + sz + 4) none slots2 ext2 bpf
              (by omega) hrun rfl
            have hl1 : ext1.length + 2 = ext.length := read_uint16_length ext ext1 ng h1
            have hl2 : ext2x.length + 2 = ext1.length := read_uint16_length ext1 ext2x sz h2
            have hl3 : (ext2x.drop sz).length = ext2x.length - sz := by
              simp [List.length_drop]
            omega
    · rw [if_neg hbp] at hrun
      simp only [Prod.mk.injEq] at hrun
      obtain ⟨_, _, hext, hbpf⟩ := hrun
      subst hext
      subst hbpf
      omega

theorem recv_iter_skip (dec : Nat → List Nat → Bool) (slots : List s2n_ecc_params)
    (g sz : Nat) (ext2 : List Nat) (h : sz ≤ ext2.length)
    (hskip : skip_condition slots g sz = true) :
    recv_iter dec slots g sz ext2 = (none, slots, ext2.drop sz) := by
  unfold recv_iter
  unfold skip_condition at hskip
  rcases hf : find_curve_aux g s2n_ecc_supported_curves 0 with _ | ⟨i, c⟩
  · rw [skip_read_of_le sz ext2 h]
  · rw [hf] at hskip
    dsimp only at hskip
    dsimp only
    rw [skip_read_of_le sz ext2 h]
    rw [Bool.or_eq_true] at hskip
    rcases hskip with h1 | h2
    · rw [if_pos h1]
    · by_cases h1 : ((slots.getD i default).negotiated_curve).isSome = true
      · rw [if_pos h1]
      · rw [if_neg h1, if_pos (of_decide_eq_true h2)]

theorem recv_iter_decode_failure (dec : Nat → List Nat → Bool)
    (slots : List s2n_ecc_params) (g sz i : Nat) (curve : s2n_ecc_named_curve)
    (ext2 : List Nat) (h : sz ≤ ext2.length)
    (hfind : find_curve_aux g s2n_ecc_supported_curves 0 = some (i, curve))
    (hslot : (slots.getD i default).negotiated_curve = none)
    (hsize : curve.share_size = sz)
    (hdec : dec curve.libcrypto_nid (ext2.take sz) = false) :
    recv_iter dec slots g sz ext2
      = (none, slots.set i { negotiated_curve := none, ec_key := none },
         ext2.drop sz) := by
  unfold recv_iter
  rw [hfind]
  dsimp only
  rw [raw_read_of_le sz ext2 h]
  rw [if_neg (by rw [hslot]; simp)]
  rw [if_neg (not_not_intro hsize)]
  dsimp only
  have hp : s2n_ecc_parse_ecc_params_point dec
      { slots.getD i default with negotiated_curve := some curve } (ext2.take sz)
      = (some S2nError.BAD_MESSAGE,
         { negotiated_curve := some curve,
           ec_key := some { nid := curve.libcrypto_nid, pub := none } }) := by
    unfold s2n_ecc_parse_ecc_params_point
    dsimp only
    rw [hdec]
    rw [if_neg Bool.false_ne_true]
  rw [hp]
  rfl

/-- C1: whenever a receive-loop iteration meets a share whose named group
matches no registry curve, or whose per-connection slot already has
negotiated_curve set, or whose declared size differs from the registry
encoded point size, it skips exactly share_size bytes, leaves every slot
unchanged by that iteration, and continues the loop with no error of its own
— the parse outcome is exactly that of the remaining shares; in particular a
payload carrying two shares for the same named group parses successfully and
populates exactly one slot, from the first occurrence. -/
theorem client_key_share_recv_skip_iteration :
    (∀ (dec : Nat → List Nat → Bool) (ksz fuel : Nat) (slots : List s2n_ecc_params)
        (bp g sz : Nat) (ext2 : List Nat),
      bp < ksz → g < 65536 → sz < 65536 → ¬ ext2.length < sz →
      skip_condition slots g sz = true →
      recv_loop dec ksz (fuel + 1) slots (u16_bytes g ++ u16_bytes sz ++ ext2) bp
        = recv_loop dec ksz fuel slots (ext2.drop sz) (bp + sz + 4))
  ∧ s2n_extensions_client_key_share_recv (fun _ _ => true)
      [⟨none, none⟩, ⟨none, none⟩]
      ([0, 138] ++ [0, 23, 0, 65] ++ List.replicate 65 4
        ++ [0, 23, 0, 65] ++ List.replicate 65 5)
    = (none,
       [⟨some { iana_id := 23, libcrypto_nid := 415, name := "secp256r1",
                share_size := 65 },
         some { nid := 415, pub := some (List.replicate 65 4) }⟩,
        ⟨none, none⟩],
       [], 138) := by
  constructor
  · intro dec ksz fuel slots bp g sz ext2 hbp hg hsz hlen hskip
    rw [List.append_assoc]
    rw [recv_loop, if_pos hbp, read_u16_bytes g (u16_bytes sz ++ ext2) hg]
    dsimp only
    rw [read_u16_bytes sz ext2 hsz]
    dsimp only
    rw [if_neg hlen, recv_iter_skip dec slots g sz ext2 (by omega) hskip]
  · decide

theorem client_key_share_recv_skip_iteration_witness :
    ((0 : Nat) < 5 ∧ (25 : Nat) < 65536 ∧ (1 : Nat) < 65536
      ∧ ¬ ([7] : List Nat).length < 1
      ∧ skip_condition [⟨none, none⟩, ⟨none, none⟩] 25 1 = true)
    ∧ recv_loop (fun _ _ => true) 5 1 [⟨none, none⟩, ⟨none, none⟩]
        (u16_bytes 25 ++ u16_bytes 1 ++ [7]) 0
      = recv_loop (fun _ _ => true) 5 0 [⟨none, none⟩, ⟨none, none⟩]
        (([7] : List Nat).drop 1) (0 + 1 + 4) :=
  ⟨⟨by decide, by decide, by decide, by decide, by decide⟩,
   client_key_share_recv_skip_iteration.1 (fun _ _ => true) 5 0
     [⟨none, none⟩, ⟨none, none⟩] 0 25 1 [7]
     (by decide) (by decide) (by decide) (by decide) (by decide)⟩

/-- C2: the receive operation returns S2N_ERR_BAD_MESSAGE exactly when the
extension is structurally short — fewer bytes remain than the declared
client_shares_length, or a share inside the declared range declares a
key_exchange_length exceeding the bytes left — and its result code never
depends on the decode capability or the slot contents, so no unknown group,
duplicate, wrong-size share or undecodable point produces an error. -/
theorem client_key_share_recv_bad_message_iff :
    (∀ (dec : Nat → List Nat → Bool) (slots : List s2n_ecc_params)
        (extension : List Nat),
      (s2n_extensions_client_key_share_recv dec slots extension).1
          = some S2nError.BAD_MESSAGE ↔ structurally_short extension)
  ∧ (∀ (dec dec2 : Nat → List Nat → Bool) (slots slots2 : List s2n_ecc_params)
        (extension : List Nat),
      (s2n_extensions_client_key_share_recv dec slots extension).1
        = (s2n_extensions_client_key_share_recv dec2 slots2 extension).1) := by
  constructor
  · intro dec slots extension
    unfold s2n_extensions_client_key_share_recv structurally_short
    rcases h : read_uint16 extension with _ | ⟨ksz, ext⟩
    · simp
    · dsimp only
      by_cases hl : ext.length < ksz
      · simp [hl]
      · rw [if_neg hl, recv_loop_err dec ksz ksz slots ext 0]
        cases hf : frame_check ksz ksz ext 0 <;> simp [hl]
  · intro dec dec2 slots slots2 extension
    unfold s2n_extensions_client_key_share_recv
    rcases h : read_uint16 extension with _ | ⟨ksz, ext⟩
    · rfl
    · dsimp only
      by_cases hl : ext.length < ksz
      · rw [if_pos hl, if_pos hl]
      · rw [if_neg hl, if_neg hl, recv_loop_err dec ksz ksz slots ext 0,
          recv_loop_err dec2 ksz ksz slots2 ext 0]

/-- C3: when a share passes the group, duplicate and size checks but its
point fails to decode, the iteration reverts the slot to fully unset
(negotiated_curve cleared, key handle freed) and continues the loop with no
error of its own — the parse outcome is exactly that of the remaining
shares; in particular a payload whose only share fails to decode parses
successfully and leaves every slot unset. -/
theorem client_key_share_recv_decode_failure_reverts :
    (∀ (dec : Nat → List Nat → Bool) (ksz fuel : Nat) (slots : List s2n_ecc_params)
        (bp g sz i : Nat) (curve : s2n_ecc_named_curve) (ext2 : List Nat),
      bp < ksz → g < 65536 → sz < 65536 → ¬ ext2.length < sz →
      find_curve_aux g s2n_ecc_supported_curves 0 = some (i, curve) →
      (slots.getD i default).negotiated_curve = none →
      curve.share_size = sz →
      dec curve.libcrypto_nid (ext2.take sz) = false →
      recv_loop dec ksz (fuel + 1) slots (u16_bytes g ++ u16_bytes sz ++ ext2) bp
        = recv_loop dec ksz fuel
            (slots.set i { negotiated_curve := none, ec_key := none })
            (ext2.drop sz) (bp + sz + 4))
  ∧ s2n_extensions_client_key_share_recv (fun _ _ => false)
      [⟨none, none⟩, ⟨none, none⟩]
      ([0, 69] ++ [0, 23, 0, 65] ++ List.replicate 65 9)
    = (none, [⟨none, none⟩, ⟨none, none⟩], [], 69) := by
  constructor
  · intro dec ksz fuel slots bp g sz i curve ext2 hbp hg hsz hlen hfind hslot hsize hdec
    rw [List.append_assoc]
    rw [recv_loop, if_pos hbp, read_u16_bytes g (u16_bytes sz ++ ext2) hg]
    dsimp only
    rw [read_u16_bytes sz ext2 hsz]
    dsimp only
    rw [if_neg hlen,
      recv_iter_decode_failure dec slots g sz i curve ext2 (by omega)
        hfind hslot hsize hdec]
  · decide

theorem client_key_share_recv_decode_failure_reverts_witness :
    ((0 : Nat) < 69
      ∧ find_curve_aux 23 s2n_ecc_supported_curves 0
          = some (0, { iana_id := 23, libcrypto_nid := 415, name := "secp256r1",
                       share_size := 65 })
      ∧ (([⟨none, none⟩, ⟨none, none⟩] : List s2n_ecc_params).getD 0
            default).negotiated_curve = none
      ∧ (fun (_ : Nat) (_ : List Nat) => false) 415
          ((List.replicate 65 9).take 65) = false)
    ∧ recv_loop (fun _ _ => false) 69 1 [⟨none, none⟩, ⟨none, none⟩]
        (u16_bytes 23 ++ u16_bytes 65 ++ List.replicate 65 9) 0
      = recv_loop (fun _ _ => false) 69 0
          (([⟨none, none⟩, ⟨none, none⟩] : List s2n_ecc_params).set 0
            { negotiated_curve := none, ec_key := none })
          ((List.replicate 65 9).drop 65) (0 + 65 + 4) :=
  ⟨⟨by decide, by decide, by decide, by decide⟩,
   client_key_share_recv_decode_failure_reverts.1 (fun _ _ => false) 69 0
     [⟨none, none⟩, ⟨none, none⟩] 0 23 65 0
     { iana_id := 23, libcrypto_nid := 415, name := "secp256r1", share_size := 65 }
     (List.replicate 65 9)
     (by decide) (by decide) (by decide) (by decide) (by decide) (by decide)
     (by decide) (by decide)⟩

/-- C4 counterexample: the extension body 00 01 00 19 00 00 declares
client_shares_length 1 but carries one 4-byte empty share for an unknown
group; the receive operation succeeds having counted 4 bytes, so the loop
terminates with the consumed count strictly above the declared length, not
exactly at it. -/
theorem client_key_share_recv_overshoot_counterexample :
    read_uint16 [0, 1, 0, 25, 0, 0] = some (1, [0, 25, 0, 0]) ∧
    s2n_extensions_client_key_share_recv (fun _ _ => true)
        [⟨none, none⟩, ⟨none, none⟩] [0, 1, 0, 25, 0, 0]
      = (none, [⟨none, none⟩, ⟨none, none⟩], [], 4) ∧
    (4 : Nat) ≠ 1 := by
  exact ⟨by decide, by decide, by decide⟩

/-- C4 (amended): the loop consumes one
(named_group, key_exchange_length, key_exchange) triple per iteration and
terminates when the running consumed-byte count reaches or exceeds the
declared client_shares_length; on success the count is at least the declared
length and equals the bytes consumed from the extension after the length
field, but it may exceed the declared length when the last share straddles
the declared boundary. -/
theorem client_key_share_recv_consumed_bytes
    (dec : Nat → List Nat → Bool) (slots : List s2n_ecc_params) (extension : List Nat)
    (ksz : Nat) (ext1 : List Nat) (slots2 : List s2n_ecc_params) (ext2 : List Nat)
    (bpf : Nat)
    (hread : read_uint16 extension = some (ksz, ext1))
    (hrun : s2n_extensions_client_key_share_recv dec slots extension
      = (none, slots2, ext2, bpf)) :
    ksz ≤ bpf ∧ ext1.length = ext2.length + bpf := by
  unfold s2n_extensions_client_key_share_recv at hrun
  rw [hread] at hrun
  dsimp only at hrun
  by_cases hl : ext1.length < ksz
  · rw [if_pos hl] at hrun
    simp at hrun
  · rw [if_neg hl] at hrun
    have h := recv_loop_bytes dec ksz ksz slots ext1 0 none slots2 ext2 bpf
      (by omega) hrun rfl
    omega

theorem client_key_share_recv_consumed_bytes_witness :
    read_uint16 [0, 6, 0, 25, 0, 2, 9, 9] = some (6, [0, 25, 0, 2, 9, 9]) ∧
    s2n_extensions_client_key_share_recv (fun _ _ => true)
        [⟨none, none⟩, ⟨none, none⟩] [0, 6, 0, 25, 0, 2, 9, 9]
      = (none, [⟨none, none⟩, ⟨none, none⟩], [], 6) ∧
    ((6 : Nat) ≤ 6 ∧ ([0, 25, 0, 2, 9, 9] : List Nat).length
        = ([] : List Nat).length + 6) :=
  ⟨by decide, by decide,
   client_key_share_recv_consumed_bytes (fun _ _ => true)
     [⟨none, none⟩, ⟨none, none⟩] [0, 6, 0, 25, 0, 2, 9, 9] 6 [0, 25, 0, 2, 9, 9]
     [⟨none, none⟩, ⟨none, none⟩] [] 6 (by decide) (by decide)⟩
